import Mathlib

/-!
# Block literal layout of `headers/objc.h`

A shallow embedding of the declarations of `headers/objc.h`: the anonymous
enum of block flag constants, and the member lists of the two structs
`Block_literal_1` and `Block_descriptor_1`.

Conventions.
* The enum constants are C `int` expressions `(1 << k)` with `k ≤ 30`; they
  are non-negative, so they are embedded as `Nat` with the same shift.
* The `int flags` field is represented by its 32-bit twos-complement bit
  pattern (a `Nat` below `2^32`); `bitsToInt` gives the signed value and
  `intToBits` the pattern of a signed value.  The C test `(flags & F) != 0`
  is `flagSet flags F`.
-/

namespace ObjcBlock

/-! ## The flag enum (objc.h, lines 23-37) -/

def BLOCK_IS_NOESCAPE : Nat := 1 <<< 23
def BLOCK_HAS_COPY_DISPOSE : Nat := 1 <<< 25
def BLOCK_HAS_CTOR : Nat := 1 <<< 26
def BLOCK_IS_GLOBAL : Nat := 1 <<< 28
def BLOCK_HAS_STRET : Nat := 1 <<< 29
def BLOCK_HAS_SIGNATURE : Nat := 1 <<< 30

/-- The six enumerators of the anonymous enum, by name. -/
inductive BlockFlag where
  | IS_NOESCAPE
  | HAS_COPY_DISPOSE
  | HAS_CTOR
  | IS_GLOBAL
  | HAS_STRET
  | HAS_SIGNATURE
  deriving DecidableEq, Repr, Fintype

/-- The value the header gives to each enumerator. -/
def BlockFlag.value : BlockFlag → Nat
  | .IS_NOESCAPE => BLOCK_IS_NOESCAPE
  | .HAS_COPY_DISPOSE => BLOCK_HAS_COPY_DISPOSE
  | .HAS_CTOR => BLOCK_HAS_CTOR
  | .IS_GLOBAL => BLOCK_IS_GLOBAL
  | .HAS_STRET => BLOCK_HAS_STRET
  | .HAS_SIGNATURE => BLOCK_HAS_SIGNATURE

/-- The bit position the flag table of the specification lists for each name
(this definition follows the table of the specification, not the header). -/
def BlockFlag.tableBit : BlockFlag → Nat
  | .IS_NOESCAPE => 23
  | .HAS_COPY_DISPOSE => 25
  | .HAS_CTOR => 26
  | .IS_GLOBAL => 28
  | .HAS_STRET => 29
  | .HAS_SIGNATURE => 30

/-- The C test `(flags & f) != 0`. -/
def flagSet (flags f : Nat) : Bool := flags &&& f != 0

/-- Bitwise OR of the members of a set of enumerators. -/
def orOf (S : Finset BlockFlag) : Nat :=
  S.fold (· ||| ·) 0 BlockFlag.value

/-! ## The `int` field -/

/-- Signed value of a 32-bit twos-complement pattern. -/
def bitsToInt (b : Nat) : Int :=
  if b % 2 ^ 32 < 2 ^ 31 then ((b % 2 ^ 32 : Nat) : Int)
  else ((b % 2 ^ 32 : Nat) : Int) - 2 ^ 32

/-- The 32-bit pattern that a store of the integer `v` into an `int` leaves. -/
def intToBits (v : Int) : Nat := (v % 2 ^ 32).toNat

/-- Store the integer `v` into an `int` field and read the field back. -/
def storeLoadInt (v : Int) : Int := bitsToInt (intToBits v)

/-! ## The two structs (objc.h, lines 3-19) -/

/-- The C types that occur as field types of the two structs: data pointers
and function pointers (`void *`, `void (*)(...)`, `const char *`,
`struct Block_descriptor_1 *`), `int`, and `unsigned long int`. -/
inductive CType where
  | pointer
  | int
  | unsignedLong
  deriving DecidableEq, Repr

/-- Size in bytes of a field type for pointer width `W`: `int` has 4 bytes and
`unsigned long int` is as wide as a pointer (the ILP32 and LP64 data models). -/
def CType.size (W : Nat) : CType → Nat
  | .pointer => W
  | .int => 4
  | .unsignedLong => W

/-- Natural alignment: every scalar is aligned to its own size. -/
def CType.align (W : Nat) (t : CType) : Nat := t.size W

/-- Field names of `struct Block_literal_1`. -/
inductive LiteralField where
  | isa
  | flags
  | reserved
  | invoke
  | descriptor
  deriving DecidableEq, Repr

/-- Field names of `struct Block_descriptor_1`. -/
inductive DescriptorField where
  | reserved
  | size
  | copy_helper
  | dispose_helper
  | signature
  deriving DecidableEq, Repr

/-- The member declarations of `struct Block_literal_1`, in order. -/
def Block_literal_1_fields : List (LiteralField × CType) :=
  [(.isa, .pointer), (.flags, .int), (.reserved, .int), (.invoke, .pointer),
   (.descriptor, .pointer)]

/-- The member declarations of `struct Block_descriptor_1`, in order.  The
declaration lists all five members; the `IFF` remarks are comments. -/
def Block_descriptor_1_fields : List (DescriptorField × CType) :=
  [(.reserved, .unsignedLong), (.size, .unsignedLong), (.copy_helper, .pointer),
   (.dispose_helper, .pointer), (.signature, .pointer)]

/-- Round `off` up to the next multiple of `a`. -/
def alignUp (off a : Nat) : Nat := (off + a - 1) / a * a

/-- C struct layout: the members are placed in declaration order, each at the
first offset at or after the end of its predecessor that is a multiple of its
alignment.  Gives each member with its offset, starting at offset `off`. -/
def layoutFrom {α : Type} (W : Nat) : Nat → List (α × CType) → List (α × Nat)
  | _, [] => []
  | off, (n, t) :: rest =>
    (n, alignUp off (t.align W)) :: layoutFrom W (alignUp off (t.align W) + t.size W) rest

/-- The offset just past the last member. -/
def endOffset {α : Type} (W : Nat) : Nat → List (α × CType) → Nat
  | off, [] => off
  | off, (_, t) :: rest => endOffset W (alignUp off (t.align W) + t.size W) rest

/-- Alignment of a struct: the largest alignment of a member. -/
def structAlign {α : Type} (W : Nat) (fields : List (α × CType)) : Nat :=
  (fields.map (fun f => f.2.align W)).foldr max 1

/-- The `sizeof` of a struct: the end of the last member, rounded up to the
alignment of the struct. -/
def sizeofStruct {α : Type} (W : Nat) (fields : List (α × CType)) : Nat :=
  alignUp (endOffset W 0 fields) (structAlign W fields)

/-- The `offsetof` of a member. -/
def offsetOf {α : Type} [BEq α] (W : Nat) (fields : List (α × CType)) (n : α) : Option Nat :=
  (layoutFrom W 0 fields).lookup n

/-- Sum of the sizes of the members. -/
def fieldBytes {α : Type} (W : Nat) (fields : List (α × CType)) : Nat :=
  (fields.map (fun f => f.2.size W)).sum

/-- Padding bytes of a struct: what `sizeof` has beyond the members. -/
def paddingBytes {α : Type} (W : Nat) (fields : List (α × CType)) : Nat :=
  sizeofStruct W fields - fieldBytes W fields

/-- Index of a member in pointer-width words, for a struct whose members are
all one word wide. -/
def wordIndex {α : Type} [BEq α] (W : Nat) (fields : List (α × CType)) (n : α) : Option Nat :=
  (offsetOf W fields n).map (fun o => o / W)

/-- The descriptor as the specification words it (and as the `IFF` comments
of lines 13-16 say): `reserved`, `size`, then the two helpers iff
`BLOCK_HAS_COPY_DISPOSE` is set, then `signature` iff `BLOCK_HAS_SIGNATURE`
is set.  This definition follows the specification, to be compared with
`Block_descriptor_1_fields`. -/
def gatedDescriptorFields (flags : Nat) : List (DescriptorField × CType) :=
  [(.reserved, .unsignedLong), (.size, .unsignedLong)]
    ++ (if flagSet flags BLOCK_HAS_COPY_DISPOSE then
          [(.copy_helper, .pointer), (.dispose_helper, .pointer)] else [])
    ++ (if flagSet flags BLOCK_HAS_SIGNATURE then [(.signature, .pointer)] else [])

/-! ## The operations of the specification

The header declares data only.  The operations `construct`, `retain` and
`release` of section 4.1 of the specification have no code in the header;
they are modelled here from the words of the specification. -/

/-- Modelled from the spec: the two error kinds of section 7; the header has
no error type. -/
inductive ClosureError where
  | ConfigurationError
  | ContractViolation
  deriving DecidableEq, Repr

deriving instance DecidableEq for Except

/-- Modelled from the spec: the ClosureDescriptor record of section 3, whose
helper and signature members are optional; the header has only the fixed
struct `Block_descriptor_1`. -/
structure ClosureDescriptor where
  reserved : Nat
  size : Nat
  copy_helper : Option Nat
  dispose_helper : Option Nat
  signature : Option String
  deriving DecidableEq, Repr

/-- Modelled from the spec: the ClosureObject of section 3, the fixed header
followed by the captured-variable bytes; the header has no constructor for
it. -/
structure ClosureObject where
  type_tag : Nat
  flags : Nat
  reserved : Nat
  invoke : Nat
  descriptor : ClosureDescriptor
  captures : List Nat
  deriving DecidableEq, Repr

/-- Modelled from the spec: what a caller hands to `construct` (section 4.1
and scenarios 7 to 9 of section 8): the flags, the invoke pointer, the capture
bytes, and the helpers and signature it supplies. -/
structure ConstructRequest where
  type_tag : Nat
  flags : Nat
  invoke : Nat
  captures : List Nat
  copy_helper : Option Nat
  dispose_helper : Option Nat
  signature : Option String
  deriving DecidableEq, Repr

/-- Modelled from the spec: `construct` of section 4.1, absent from the
header.  It fails with a configuration error if HAS_STRET is requested without
HAS_SIGNATURE, or if HAS_COPY_DISPOSE is requested without both helpers;
otherwise it yields the header plus the capture bytes, sets `descriptor.size`
to the combined footprint, zeroes the reserved members, and populates the
helpers and the signature only if the corresponding flag bit is requested. -/
def construct (W : Nat) (r : ConstructRequest) : Except ClosureError ClosureObject :=
  if flagSet r.flags BLOCK_HAS_STRET && !flagSet r.flags BLOCK_HAS_SIGNATURE then
    .error .ConfigurationError
  else if flagSet r.flags BLOCK_HAS_COPY_DISPOSE &&
      !(r.copy_helper.isSome && r.dispose_helper.isSome) then
    .error .ConfigurationError
  else
    .ok {
      type_tag := r.type_tag
      flags := r.flags
      reserved := 0
      invoke := r.invoke
      descriptor := {
        reserved := 0
        size := sizeofStruct W Block_literal_1_fields + r.captures.length
        copy_helper := if flagSet r.flags BLOCK_HAS_COPY_DISPOSE then r.copy_helper else none
        dispose_helper :=
          if flagSet r.flags BLOCK_HAS_COPY_DISPOSE then r.dispose_helper else none
        signature := if flagSet r.flags BLOCK_HAS_SIGNATURE then r.signature else none }
      captures := r.captures }

/-- Modelled from the spec: an invocation of a foreign helper, the observable
effect of calling a `copy_helper` (with destination and source address) or a
`dispose_helper` (with the source address). -/
inductive HelperCall where
  | copy (helper dst src : Nat)
  | dispose (helper src : Nat)
  deriving DecidableEq, Repr

/-- Modelled from the spec: the observable state `retain` and `release` act
on: the live closures by address, the next unused address, and the helper
invocations so far. -/
structure Runtime where
  live : List (Nat × ClosureObject)
  next : Nat
  calls : List HelperCall
  deriving DecidableEq, Repr

/-- Modelled from the spec: a closure is exempt from retain and release when
IS_GLOBAL or IS_NOESCAPE is set in its flags. -/
def exempt (c : ClosureObject) : Bool :=
  flagSet c.flags BLOCK_IS_GLOBAL || flagSet c.flags BLOCK_IS_NOESCAPE

/-- Modelled from the spec: `retain` of section 4.1, absent from the header.
A no-op returning the same reference if IS_GLOBAL or IS_NOESCAPE is set;
otherwise it invokes `copy_helper` if present, else makes a flat copy of header
and captures, and yields a new instance.  `copyVia h c` is what the foreign
helper `h` produces from `c`.  Retaining an address that is not a live closure
is a contract violation and has no result. -/
def retain (copyVia : Nat → ClosureObject → ClosureObject) (rt : Runtime) (p : Nat) :
    Option (Nat × Runtime) :=
  match rt.live.lookup p with
  | none => none
  | some c =>
    if exempt c then some (p, rt)
    else
      match c.descriptor.copy_helper with
      | some h =>
        some (rt.next,
          { live := (rt.next, copyVia h c) :: rt.live
            next := rt.next + 1
            calls := rt.calls ++ [HelperCall.copy h rt.next p] })
      | none =>
        some (rt.next,
          { live := (rt.next, c) :: rt.live
            next := rt.next + 1
            calls := rt.calls })

/-- Modelled from the spec: `release` of section 4.1, absent from the header.
A no-op if IS_GLOBAL or IS_NOESCAPE is set; otherwise it invokes
`dispose_helper` if present, and the closure passes from live to disposed (its
storage is reclaimed).  Releasing an address that is not a live closure is a
contract violation and has no result. -/
def release (rt : Runtime) (p : Nat) : Option Runtime :=
  match rt.live.lookup p with
  | none => none
  | some c =>
    if exempt c then some rt
    else
      match c.descriptor.dispose_helper with
      | some h =>
        some
          { live := rt.live.filter (fun e => e.1 != p)
            next := rt.next
            calls := rt.calls ++ [HelperCall.dispose h p] }
      | none =>
        some
          { live := rt.live.filter (fun e => e.1 != p)
            next := rt.next
            calls := rt.calls }

/-- Release the closure at `p` `n` times in a row. -/
def releaseTimes (rt : Runtime) (p : Nat) : Nat → Option Runtime
  | 0 => some rt
  | n + 1 => (release rt p).bind (fun rt1 => releaseTimes rt1 p n)

/-! ## Flag constants -/

theorem value_eq_two_pow (f : BlockFlag) : f.value = 2 ^ f.tableBit := by
  cases f <;> decide

theorem value_testBit (f : BlockFlag) (i : Nat) :
    f.value.testBit i = decide (i = f.tableBit) := by
  rw [value_eq_two_pow, Nat.testBit_two_pow]
  by_cases h : i = f.tableBit
  · simp [h]
  · have h2 : ¬ f.tableBit = i := fun e => h e.symm
    simp [h, h2]

theorem tableBit_injective : Function.Injective BlockFlag.tableBit := by
  intro a b; cases a <;> cases b <;> simp [BlockFlag.tableBit]

theorem orOf_insert (S : Finset BlockFlag) (f : BlockFlag) (h : f ∉ S) :
    orOf (insert f S) = f.value ||| orOf S := by
  unfold orOf
  rw [Finset.fold_insert h]

theorem orOf_testBit (S : Finset BlockFlag) (i : Nat) :
    (orOf S).testBit i = decide (∃ f ∈ S, f.tableBit = i) := by
  induction S using Finset.induction_on with
  | empty => simp [orOf]
  | insert h ih =>
    rw [orOf_insert _ _ h, Nat.testBit_lor, ih, value_testBit]
    simp only [Finset.mem_insert, exists_eq_or_imp, Bool.decide_or]
    congr 1
    simp [eq_comm]

theorem and_two_pow_ne_zero (n k : Nat) : n &&& 2 ^ k ≠ 0 ↔ n.testBit k = true := by
  constructor
  · intro h
    by_contra hb
    apply h
    apply Nat.eq_of_testBit_eq
    intro i
    rw [Nat.testBit_and, Nat.testBit_two_pow, Nat.zero_testBit]
    by_cases hk : k = i
    · subst hk; simp [hb]
    · simp [hk]
  · intro hb h
    have := congrArg (fun m => m.testBit k) h
    simp [Nat.testBit_and, Nat.testBit_two_pow, hb] at this

theorem flagSet_iff_testBit (flags : Nat) (f : BlockFlag) :
    flagSet flags f.value = true ↔ flags.testBit f.tableBit = true := by
  unfold flagSet
  rw [bne_iff_ne, value_eq_two_pow, and_two_pow_ne_zero]

theorem flagSet_orOf (S : Finset BlockFlag) (f : BlockFlag) :
    flagSet (orOf S) f.value = true ↔ f ∈ S := by
  rw [flagSet_iff_testBit, orOf_testBit, decide_eq_true_iff]
  constructor
  · rintro ⟨g, hg, e⟩
    rwa [← tableBit_injective e]
  · intro h
    exact ⟨f, h, rfl⟩

theorem orOf_lt (S : Finset BlockFlag) : orOf S < 2 ^ 31 := by
  induction S using Finset.induction_on with
  | empty => simp [orOf]
  | insert h ih =>
    rw [orOf_insert _ _ h]
    apply Nat.or_lt_two_pow _ ih
    rw [value_eq_two_pow]
    rename_i f _
    cases f <;> decide

theorem orOf_injective (S T : Finset BlockFlag) (h : orOf S = orOf T) : S = T := by
  ext f
  rw [← flagSet_orOf S f, ← flagSet_orOf T f, h]

theorem value_and_value (f g : BlockFlag) (h : f ≠ g) : f.value &&& g.value = 0 := by
  cases f <;> cases g <;> first | exact absurd rfl h | decide

theorem construct_flags (W : Nat) (r : ConstructRequest) (obj : ClosureObject)
    (h : construct W r = .ok obj) : obj.flags = r.flags := by
  unfold construct at h
  split at h
  · cases h
  · split at h
    · cases h
    · cases h; rfl

theorem construct_ok_iff (W : Nat) (r : ConstructRequest) :
    (∃ obj, construct W r = .ok obj) ↔
      (flagSet r.flags BLOCK_HAS_STRET = true → flagSet r.flags BLOCK_HAS_SIGNATURE = true) ∧
      (flagSet r.flags BLOCK_HAS_COPY_DISPOSE = true →
        r.copy_helper.isSome = true ∧ r.dispose_helper.isSome = true) := by
  unfold construct
  cases flagSet r.flags BLOCK_HAS_STRET <;> cases flagSet r.flags BLOCK_HAS_SIGNATURE <;>
    cases flagSet r.flags BLOCK_HAS_COPY_DISPOSE <;> cases r.copy_helper.isSome <;>
    cases r.dispose_helper.isSome <;> simp

theorem orOf_le_univ : ∀ S : Finset BlockFlag, orOf S ≤ orOf Finset.univ := by
  decide

/-- A closure that is not exempt is copied by `retain` to a new address and
leaves the live set on `release`; a second `release` has no result. -/
theorem retain_release_not_exempt :
    retain (fun _ c => c)
      ⟨[(100, ⟨0, BLOCK_HAS_SIGNATURE, 0, 7, ⟨0, 32, none, none, some "v8@?0"⟩, []⟩)], 101, []⟩
      100 =
      some (101,
        ⟨[(101, ⟨0, BLOCK_HAS_SIGNATURE, 0, 7, ⟨0, 32, none, none, some "v8@?0"⟩, []⟩),
          (100, ⟨0, BLOCK_HAS_SIGNATURE, 0, 7, ⟨0, 32, none, none, some "v8@?0"⟩, []⟩)],
         102, []⟩) ∧
    release
      ⟨[(100, ⟨0, BLOCK_HAS_SIGNATURE, 0, 7, ⟨0, 32, none, none, some "v8@?0"⟩, []⟩)], 101, []⟩
      100 = some ⟨[], 101, []⟩ ∧
    releaseTimes
      ⟨[(100, ⟨0, BLOCK_HAS_SIGNATURE, 0, 7, ⟨0, 32, none, none, some "v8@?0"⟩, []⟩)], 101, []⟩
      100 2 = none := by
  decide

/-! ## The claims -/

/-- C1: each of the six flag constants of the header is the single bit that
the flag table of the specification assigns to it (23, 25, 26, 28, 29, 30);
`BLOCK_IS_GLOBAL` is 268435456; and for every bit index, the bit of a constant
is set if and only if the index is the table position of that constant. -/
theorem flag_constants_single_bit :
    BLOCK_IS_NOESCAPE = 2 ^ 23 ∧ BLOCK_HAS_COPY_DISPOSE = 2 ^ 25 ∧ BLOCK_HAS_CTOR = 2 ^ 26 ∧
    BLOCK_IS_GLOBAL = 2 ^ 28 ∧ BLOCK_IS_GLOBAL = 268435456 ∧ BLOCK_HAS_STRET = 2 ^ 29 ∧
    BLOCK_HAS_SIGNATURE = 2 ^ 30 ∧
    (∀ i : Nat, BLOCK_IS_NOESCAPE.testBit i = decide (i = 23)) ∧
    (∀ i : Nat, BLOCK_HAS_COPY_DISPOSE.testBit i = decide (i = 25)) ∧
    (∀ i : Nat, BLOCK_HAS_CTOR.testBit i = decide (i = 26)) ∧
    (∀ i : Nat, BLOCK_IS_GLOBAL.testBit i = decide (i = 28)) ∧
    (∀ i : Nat, BLOCK_HAS_STRET.testBit i = decide (i = 29)) ∧
    (∀ i : Nat, BLOCK_HAS_SIGNATURE.testBit i = decide (i = 30)) ∧
    (∀ f : BlockFlag, f.value = 2 ^ f.tableBit) := by
  refine ⟨by decide, by decide, by decide, by decide, by decide, by decide, by decide,
    fun i => value_testBit .IS_NOESCAPE i, fun i => value_testBit .HAS_COPY_DISPOSE i,
    fun i => value_testBit .HAS_CTOR i, fun i => value_testBit .IS_GLOBAL i,
    fun i => value_testBit .HAS_STRET i, fun i => value_testBit .HAS_SIGNATURE i,
    value_eq_two_pow⟩

/-- C2: the six flag constants are composable: two distinct constants have
bitwise AND 0; for every subset `S` of the six flags, the test
`(orOf S & f) != 0` holds if and only if `f` is in `S`; and two subsets with
the same OR are the same subset. -/
theorem flags_composable :
    (∀ f g : BlockFlag, f ≠ g → f.value &&& g.value = 0) ∧
    (∀ (S : Finset BlockFlag) (f : BlockFlag), flagSet (orOf S) f.value = true ↔ f ∈ S) ∧
    (∀ S T : Finset BlockFlag, orOf S = orOf T → S = T) :=
  ⟨value_and_value, flagSet_orOf, orOf_injective⟩

/-- Witness of C2 at the constants `BLOCK_IS_GLOBAL` and `BLOCK_HAS_STRET` and
the subset of the two. -/
theorem flags_composable_witness :
    BLOCK_IS_GLOBAL &&& BLOCK_HAS_STRET = 0 ∧
    flagSet (orOf {BlockFlag.IS_GLOBAL, BlockFlag.HAS_STRET}) BLOCK_HAS_STRET = true ∧
    ({BlockFlag.IS_GLOBAL, BlockFlag.HAS_STRET} : Finset BlockFlag) = {.HAS_STRET, .IS_GLOBAL} :=
  ⟨flags_composable.1 .IS_GLOBAL .HAS_STRET (by decide),
   (flags_composable.2.1 {.IS_GLOBAL, .HAS_STRET} .HAS_STRET).2 (by decide),
   flags_composable.2.2 _ _ (by decide)⟩

/-- C3: the flags of the concrete scenario,
`BLOCK_HAS_SIGNATURE | BLOCK_HAS_COPY_DISPOSE`, are 1107296256, with bits 30
and 25 set and no other bit; the HAS_SIGNATURE and HAS_COPY_DISPOSE tests are
non-zero in it and the four other tests are zero. -/
theorem scenario_flags_value :
    BLOCK_HAS_SIGNATURE ||| BLOCK_HAS_COPY_DISPOSE = 1107296256 ∧
    (∀ i : Nat, (BLOCK_HAS_SIGNATURE ||| BLOCK_HAS_COPY_DISPOSE).testBit i
      = decide (i = 30 ∨ i = 25)) ∧
    flagSet (BLOCK_HAS_SIGNATURE ||| BLOCK_HAS_COPY_DISPOSE) BLOCK_HAS_SIGNATURE = true ∧
    flagSet (BLOCK_HAS_SIGNATURE ||| BLOCK_HAS_COPY_DISPOSE) BLOCK_HAS_COPY_DISPOSE = true ∧
    flagSet (BLOCK_HAS_SIGNATURE ||| BLOCK_HAS_COPY_DISPOSE) BLOCK_IS_NOESCAPE = false ∧
    flagSet (BLOCK_HAS_SIGNATURE ||| BLOCK_HAS_COPY_DISPOSE) BLOCK_HAS_CTOR = false ∧
    flagSet (BLOCK_HAS_SIGNATURE ||| BLOCK_HAS_COPY_DISPOSE) BLOCK_IS_GLOBAL = false ∧
    flagSet (BLOCK_HAS_SIGNATURE ||| BLOCK_HAS_COPY_DISPOSE) BLOCK_HAS_STRET = false := by
  refine ⟨by decide, ?_, by decide, by decide, by decide, by decide, by decide, by decide⟩
  intro i
  have h1 := value_testBit .HAS_SIGNATURE i
  have h2 := value_testBit .HAS_COPY_DISPOSE i
  simp only [BlockFlag.value, BlockFlag.tableBit] at h1 h2
  rw [Nat.testBit_lor, h1, h2, Bool.decide_or]

/-- C4: for a pointer width `W` of 4 or 8 bytes, a 4-byte `int` and natural
alignment, the members of `struct Block_literal_1` lie at offsets 0 (isa),
W (flags), W+4 (reserved), W+8 (invoke) and 2W+8 (descriptor); there is no
padding between or after them, and the struct has 3W+8 bytes: 20 for W=4 and
32 for W=8. -/
theorem block_literal_layout (W : Nat) (hW : W = 4 ∨ W = 8) :
    layoutFrom W 0 Block_literal_1_fields =
      [(.isa, 0), (.flags, W), (.reserved, W + 4), (.invoke, W + 8),
       (.descriptor, 2 * W + 8)] ∧
    sizeofStruct W Block_literal_1_fields = 3 * W + 8 ∧
    fieldBytes W Block_literal_1_fields = 3 * W + 8 ∧
    paddingBytes W Block_literal_1_fields = 0 ∧
    sizeofStruct 4 Block_literal_1_fields = 20 ∧
    sizeofStruct 8 Block_literal_1_fields = 32 := by
  rcases hW with rfl | rfl <;> decide

/-- Witness of C4 at pointer width 8. -/
theorem block_literal_layout_witness :
    offsetOf 8 Block_literal_1_fields .descriptor = some 24 ∧
    sizeofStruct 8 Block_literal_1_fields = 3 * 8 + 8 := by
  have h := block_literal_layout 8 (Or.inr rfl)
  refine ⟨?_, h.2.1⟩
  unfold offsetOf
  rw [h.1]
  decide

/-- C5, evaluated at flags = `BLOCK_HAS_SIGNATURE` (bit 30 set, bit 25 clear):
the struct `Block_descriptor_1` as declared has five members with `signature`
at word index 4, while the flag-gated descriptor of the claim has three
members with `signature` at word index 2; the declared member list is the
gated one exactly for the flags values with both bits 25 and 30 set. -/
theorem declared_descriptor_not_gated :
    flagSet BLOCK_HAS_SIGNATURE BLOCK_HAS_COPY_DISPOSE = false ∧
    flagSet BLOCK_HAS_SIGNATURE BLOCK_HAS_SIGNATURE = true ∧
    Block_descriptor_1_fields.length = 5 ∧
    (gatedDescriptorFields BLOCK_HAS_SIGNATURE).length = 3 ∧
    wordIndex 8 Block_descriptor_1_fields .signature = some 4 ∧
    wordIndex 8 (gatedDescriptorFields BLOCK_HAS_SIGNATURE) .signature = some 2 ∧
    wordIndex 4 Block_descriptor_1_fields .signature = some 4 ∧
    wordIndex 4 (gatedDescriptorFields BLOCK_HAS_SIGNATURE) .signature = some 2 ∧
    (∀ flags : Nat, Block_descriptor_1_fields = gatedDescriptorFields flags ↔
      (flagSet flags BLOCK_HAS_COPY_DISPOSE = true ∧
        flagSet flags BLOCK_HAS_SIGNATURE = true)) := by
  refine ⟨by decide, by decide, by decide, by decide, by decide, by decide, by decide,
    by decide, ?_⟩
  intro flags
  unfold gatedDescriptorFields
  cases flagSet flags BLOCK_HAS_COPY_DISPOSE <;> cases flagSet flags BLOCK_HAS_SIGNATURE <;>
    simp [Block_descriptor_1_fields]

/-- C6: for every closure object that `construct` yields, `descriptor.size`
is the size of the fixed `struct Block_literal_1` header plus the number of
capture bytes, the captures being those requested; with no captures it is
`sizeof(struct Block_literal_1)`. -/
theorem construct_descriptor_size (W : Nat) (r : ConstructRequest) (obj : ClosureObject)
    (h : construct W r = .ok obj) :
    obj.captures = r.captures ∧
    obj.descriptor.size = sizeofStruct W Block_literal_1_fields + obj.captures.length ∧
    (obj.captures = [] → obj.descriptor.size = sizeofStruct W Block_literal_1_fields) := by
  unfold construct at h
  split at h
  · cases h
  · split at h
    · cases h
    · cases h
      refine ⟨rfl, rfl, ?_⟩
      intro hc
      simp only at hc
      simp [hc]

/-- Witness of C6: a global closure with three capture bytes on a platform
with 8-byte pointers is constructed, with `descriptor.size` 32 + 3. -/
theorem construct_descriptor_size_witness :
    construct 8 ⟨0, BLOCK_IS_GLOBAL, 7, [1, 2, 3], none, none, none⟩ =
      .ok ⟨0, BLOCK_IS_GLOBAL, 0, 7, ⟨0, 35, none, none, none⟩, [1, 2, 3]⟩ ∧
    (35 : Nat) = sizeofStruct 8 Block_literal_1_fields + [1, 2, 3].length :=
  ⟨by decide,
   (construct_descriptor_size 8 ⟨0, BLOCK_IS_GLOBAL, 7, [1, 2, 3], none, none, none⟩
     ⟨0, BLOCK_IS_GLOBAL, 0, 7, ⟨0, 35, none, none, none⟩, [1, 2, 3]⟩ (by decide)).2.1⟩

/-- C7: `construct` fails with a configuration error, and yields no object,
for every request whose flags have HAS_STRET (bit 29) set and HAS_SIGNATURE
(bit 30) clear; hence every closure it yields with HAS_STRET set has
HAS_SIGNATURE set. -/
theorem construct_stret_needs_signature (W : Nat) (r : ConstructRequest) :
    (flagSet r.flags BLOCK_HAS_STRET = true → flagSet r.flags BLOCK_HAS_SIGNATURE = false →
      construct W r = .error .ConfigurationError ∧ ∀ obj, construct W r ≠ .ok obj) ∧
    (∀ obj, construct W r = .ok obj → flagSet obj.flags BLOCK_HAS_STRET = true →
      flagSet obj.flags BLOCK_HAS_SIGNATURE = true) := by
  have key : flagSet r.flags BLOCK_HAS_STRET = true →
      flagSet r.flags BLOCK_HAS_SIGNATURE = false →
      construct W r = .error .ConfigurationError := by
    intro hs hn
    simp [construct, hs, hn]
  refine ⟨fun hs hn => ⟨key hs hn, ?_⟩, ?_⟩
  · intro obj ho
    rw [key hs hn] at ho
    cases ho
  · intro obj ho hs
    rw [construct_flags W r obj ho] at hs ⊢
    by_contra hn
    rw [key hs (by simpa using hn)] at ho
    cases ho

/-- Witness of C7: the request of scenario 9, HAS_STRET without HAS_SIGNATURE,
is rejected. -/
theorem construct_stret_needs_signature_witness :
    construct 8 ⟨0, BLOCK_HAS_STRET, 7, [], none, none, none⟩ =
      .error .ConfigurationError :=
  ((construct_stret_needs_signature 8 ⟨0, BLOCK_HAS_STRET, 7, [], none, none, none⟩).1
    (by decide) (by decide)).1

/-- C9: for every live closure whose flags have IS_GLOBAL or IS_NOESCAPE set,
`retain` returns the address it was given and leaves the state as it was, and
`release` leaves the state as it was, so releasing it any number of times is
the same as not releasing it. -/
theorem exempt_retain_release (copyVia : Nat → ClosureObject → ClosureObject)
    (rt : Runtime) (p : Nat) (c : ClosureObject)
    (hlive : rt.live.lookup p = some c)
    (hflag : flagSet c.flags BLOCK_IS_GLOBAL = true ∨
      flagSet c.flags BLOCK_IS_NOESCAPE = true) :
    retain copyVia rt p = some (p, rt) ∧ release rt p = some rt ∧
    ∀ n : Nat, releaseTimes rt p n = some rt := by
  have hex : exempt c = true := by
    unfold exempt
    rcases hflag with h | h <;> simp [h]
  have hrel : release rt p = some rt := by
    simp [release, hlive, hex]
  refine ⟨by simp [retain, hlive, hex], hrel, ?_⟩
  intro n
  induction n with
  | zero => rfl
  | succ k ih => simp [releaseTimes, hrel, ih]

/-- Witness of C9: a closure with flags `BLOCK_IS_NOESCAPE` alone and a
dispose helper, live at address 100, retained once and released three
times. -/
theorem exempt_retain_release_witness :
    retain (fun _ c => c)
      ⟨[(100, ⟨0, BLOCK_IS_NOESCAPE, 0, 7, ⟨0, 32, some 1, some 2, none⟩, []⟩)], 101, []⟩ 100
      = some (100,
        ⟨[(100, ⟨0, BLOCK_IS_NOESCAPE, 0, 7, ⟨0, 32, some 1, some 2, none⟩, []⟩)], 101, []⟩) ∧
    releaseTimes
      ⟨[(100, ⟨0, BLOCK_IS_NOESCAPE, 0, 7, ⟨0, 32, some 1, some 2, none⟩, []⟩)], 101, []⟩ 100 3
      = some ⟨[(100, ⟨0, BLOCK_IS_NOESCAPE, 0, 7, ⟨0, 32, some 1, some 2, none⟩, []⟩)], 101, []⟩ :=
  have h := exempt_retain_release (fun _ c => c)
    ⟨[(100, ⟨0, BLOCK_IS_NOESCAPE, 0, 7, ⟨0, 32, some 1, some 2, none⟩, []⟩)], 101, []⟩ 100
    ⟨0, BLOCK_IS_NOESCAPE, 0, 7, ⟨0, 32, some 1, some 2, none⟩, []⟩ (by decide)
    (Or.inr (by decide))
  ⟨h.1, h.2.2 3⟩

/-- C10: every combination of the six flag constants fits the 32-bit signed
`int` that holds it: the OR of any subset is at least 0 and below 2^31, its
bit 31 is clear, storing it into the `int` and reading it back gives the same
value, and the OR of all six is 1988100096. -/
theorem flags_fit_int (S : Finset BlockFlag) :
    (0 : Int) ≤ (orOf S : Int) ∧ orOf S < 2 ^ 31 ∧ (orOf S).testBit 31 = false ∧
    intToBits (orOf S : Int) = orOf S ∧ storeLoadInt (orOf S : Int) = (orOf S : Int) ∧
    bitsToInt (orOf S) = (orOf S : Int) ∧
    orOf S ≤ orOf Finset.univ ∧ orOf Finset.univ = 1988100096 := by
  have hlt := orOf_lt S
  have hbits : intToBits (orOf S : Int) = orOf S := by
    unfold intToBits
    norm_num at hlt ⊢
    omega
  have hval : bitsToInt (orOf S) = (orOf S : Int) := by
    unfold bitsToInt
    have hm : orOf S % 2 ^ 32 = orOf S := Nat.mod_eq_of_lt (by norm_num at hlt ⊢; omega)
    rw [hm, if_pos hlt]
  refine ⟨Int.natCast_nonneg _, hlt, Nat.testBit_lt_two_pow hlt, hbits, ?_, hval, ?_,
    by decide⟩
  · unfold storeLoadInt
    rw [hbits, hval]
  · exact orOf_le_univ S

end ObjcBlock
